import Mathlib

/- Shallow embedding of the Mesos slave (agent) process, from src/slave/slave.cpp
   and src/slave/slave.hpp. The C++ hashmaps are modelled as association lists
   (iteration order of a hashmap is unspecified; the list order stands in for it),
   outbound messages and isolation-module calls are modelled as emitted events,
   and wall-clock time (elapsedTime) is passed in explicitly as a natural number. -/

namespace Mesos

/-- Modelled from the spec: association-list stand-in for the `hashmap` container
    of common/hashmap.hpp (not under src/). `alookup` is `hashmap::operator[]`
    reading / `contains`, `aupsert` is `operator[]=` (update the existing key in
    place, else append), `aerase` is `erase`. -/
def alookup {K V : Type} [DecidableEq K] : List (K × V) → K → Option V
  | [], _ => none
  | (k', v') :: rest, k => if k' = k then some v' else alookup rest k

/-- Update the binding for `k` in place if present, else append it. -/
def aupsert {K V : Type} [DecidableEq K] : List (K × V) → K → V → List (K × V)
  | [], k, v => [(k, v)]
  | (k', v') :: rest, k, v =>
    if k' = k then (k, v) :: rest else (k', v') :: aupsert rest k v

/-- Remove every binding for `k`. -/
def aerase {K V : Type} [DecidableEq K] : List (K × V) → K → List (K × V)
  | [], _ => []
  | (k', v') :: rest, k =>
    if k' = k then aerase rest k else (k', v') :: aerase rest k

/-- `hashmap::contains`. -/
def acontains {K V : Type} [DecidableEq K] (l : List (K × V)) (k : K) : Bool :=
  (alookup l k).isSome

/-- Modelled from the spec: the resource algebra of common/resources.hpp (not under
    src/): "Resources are a multiset of named values. The algebra supports
    commutative addition and subtraction (per-name)". Scalars are modelled as
    integers; a resource vector is a list of (name, amount) pairs. -/
abbrev Resources := List (String × Int)

/-- Add a single named resource into a vector (`operator+=` for one Resource). -/
def Resources.addOne (rs : Resources) (r : String × Int) : Resources :=
  match rs with
  | [] => [r]
  | (n, v) :: rest => if n = r.1 then (n, v + r.2) :: rest else (n, v) :: Resources.addOne rest r

/-- `Resources::operator+=`: add every resource of `ts` into `rs`. -/
def Resources.add (rs ts : Resources) : Resources :=
  List.foldl Resources.addOne rs ts

/-- Subtract a single named resource from a vector (`operator-=` for one Resource). -/
def Resources.subOne (rs : Resources) (r : String × Int) : Resources :=
  match rs with
  | [] => [(r.1, -r.2)]
  | (n, v) :: rest => if n = r.1 then (n, v - r.2) :: rest else (n, v) :: Resources.subOne rest r

/-- `foreach (resource, task->resources()) resources -= resource;` -/
def Resources.sub (rs ts : Resources) : Resources :=
  List.foldl Resources.subOne rs ts

/-- Task states, messaging/messages.hpp enum TaskState (declared outside src/;
    the six states are fixed by slave.cpp's initialize and statusUpdate). -/
inductive TaskState
  | TASK_STARTING
  | TASK_RUNNING
  | TASK_FINISHED
  | TASK_FAILED
  | TASK_KILLED
  | TASK_LOST
deriving DecidableEq

/-- The terminal-state test of Slave::statusUpdate (slave.cpp:1107-1110):
    FINISHED, FAILED, KILLED or LOST. -/
def isTerminal (st : TaskState) : Bool :=
  st = TaskState.TASK_FINISHED || st = TaskState.TASK_FAILED ||
    st = TaskState.TASK_KILLED || st = TaskState.TASK_LOST

/-- ExecutorInfo: executor id, binary uri, opaque data (fields used by slave.cpp). -/
structure ExecutorInfo where
  executor_id : String
  uri : String
  data : String
deriving DecidableEq

/-- FrameworkInfo: name, user and the framework's default executor spec. -/
structure FrameworkInfo where
  name : String
  user : String
  executor : ExecutorInfo
deriving DecidableEq

/-- TaskDescription: the task descriptor carried by RunTask; `executor` is the
    optional embedded executor spec (`task.has_executor()`). -/
structure TaskDescription where
  task_id : String
  name : String
  slave_id : String
  resources : Resources
  executor : Option ExecutorInfo
deriving DecidableEq

/-- Task: the launched-task record built by Executor::addTask (slave.cpp:58-75). -/
structure Task where
  framework_id : String
  executor_id : String
  state : TaskState
  name : String
  task_id : String
  slave_id : String
  resources : Resources
deriving DecidableEq

/-- TaskStatus: task id plus state (the fields slave.cpp reads and writes). -/
structure TaskStatus where
  task_id : String
  state : TaskState
deriving DecidableEq

/-- StatusUpdate record (fields built in Slave::killTask and read in statusUpdate). -/
structure StatusUpdate where
  framework_id : String
  slave_id : String
  executor_id : Option String
  status : TaskStatus
  timestamp : Nat
  sequence : Int
deriving DecidableEq

/-- struct Executor (slave.cpp:39-113). `pid` is the runtime endpoint (UPID),
    with `""` standing for the empty UPID (unregistered). -/
structure Executor where
  id : String
  info : ExecutorInfo
  frameworkId : String
  directory : String
  pid : String
  resources : Resources
  queuedTasks : List (String × TaskDescription)
  launchedTasks : List (String × Task)
deriving DecidableEq

/-- struct Framework (slave.cpp:117-172). `updates` is
    hashmap<double, hashmap<TaskID, StatusUpdate>>, keyed by retry deadline. -/
structure Framework where
  id : String
  info : FrameworkInfo
  pid : String
  executors : List (String × Executor)
  updates : List (Nat × List (String × StatusUpdate))
deriving DecidableEq

/-- The statistics counters of class Slave (slave.hpp:142-148) that the active
    code reads or writes (the per-state task counters are never mutated by the
    handlers modelled here and are omitted). -/
structure Statistics where
  validStatusUpdates : Nat
  invalidStatusUpdates : Nat
  validFrameworkMessages : Nat
  invalidFrameworkMessages : Nat
deriving DecidableEq

/-- The mutable registry state of class Slave (slave.hpp:124-150): slave id,
    hostname (from SlaveInfo), current master endpoint, framework map, counters. -/
structure SlaveState where
  id : String
  hostname : String
  master : String
  frameworks : List (String × Framework)
  statistics : Statistics
deriving DecidableEq

/-- Outbound effects of a handler: message sends (`send(...)` calls, with their
    destination) and isolation-module calls, in program order. The message
    vocabulary is that of messaging/messages.hpp / spec section 6.1; in particular
    `StatusUpdateAckToExecutor` is the S2E_STATUS_UPDATE_ACK message. -/
inductive Event
  | StatusUpdateToMaster (dest : String) (update : StatusUpdate) (reliable : Bool)
  | StatusUpdateAckToExecutor (dest : String) (frameworkId : String) (slaveId : String)
      (taskId : String)
  | RunTaskToExecutor (dest : String) (frameworkId : String) (frameworkInfo : FrameworkInfo)
      (frameworkPid : String) (task : TaskDescription)
  | KillTaskToExecutor (dest : String) (frameworkId : String) (taskId : String)
  | KillExecutorTo (dest : String)
  | RegisterReplyToExecutor (dest : String) (frameworkId : String) (executorId : String)
      (slaveId : String) (hostname : String) (data : String)
  | ResourcesChanged (frameworkId : String) (executorInfo : ExecutorInfo)
      (resources : Resources)
deriving DecidableEq

/-- Is an event the S2E_STATUS_UPDATE_ACK message to an executor? -/
def Event.isAck : Event → Bool
  | Event.StatusUpdateAckToExecutor _ _ _ _ => true
  | _ => false

/-- STATUS_UPDATE_RETRY_INTERVAL (slave.hpp:24). -/
def STATUS_UPDATE_RETRY_INTERVAL : Nat := 10

/-- Executor::updateTaskState (slave.cpp:93-98): set the state of a launched task;
    a task that is not launched is left untouched. -/
def Executor.updateTaskState (e : Executor) (taskId : String) (state : TaskState) : Executor :=
  match alookup e.launchedTasks taskId with
  | some t => { e with launchedTasks := aupsert e.launchedTasks taskId { t with state := state } }
  | none => e

/-- Executor::removeTask (slave.cpp:77-91): drop the task from the queue, and if
    launched, subtract its resources and erase it. -/
def Executor.removeTask (e : Executor) (taskId : String) : Executor :=
  let e1 := { e with queuedTasks := aerase e.queuedTasks taskId }
  match alookup e1.launchedTasks taskId with
  | some t =>
    { e1 with
      resources := Resources.sub e1.resources t.resources,
      launchedTasks := aerase e1.launchedTasks taskId }
  | none => e1

/-- The Task record built by Executor::addTask (slave.cpp:64-71). -/
def Executor.mkTask (e : Executor) (task : TaskDescription) : Task :=
  { framework_id := e.frameworkId, executor_id := e.id, state := TaskState.TASK_STARTING,
    name := task.name, task_id := task.task_id, slave_id := task.slave_id,
    resources := task.resources }

/-- Executor::addTask (slave.cpp:58-75). The CHECK that the task id is not already
    launched is modelled as the `none` result. -/
def Executor.addTask (e : Executor) (task : TaskDescription) : Option Executor :=
  if acontains e.launchedTasks task.task_id then none
  else some
    { e with
      launchedTasks := aupsert e.launchedTasks task.task_id (e.mkTask task),
      resources := Resources.add e.resources task.resources }

/-- Framework::getExecutor(ExecutorID) (slave.cpp:144-151). -/
def Framework.getExecutor (fw : Framework) (executorId : String) : Option Executor :=
  alookup fw.executors executorId

/-- Framework::getExecutor(TaskID) (slave.cpp:153-163), returning the map entry
    (key and executor) so that the in-place mutation of the found executor can be
    modelled as an update at its key. -/
def Framework.findExecutorEntryByTask (fw : Framework) (taskId : String) :
    Option (String × Executor) :=
  fw.executors.find? (fun p => acontains p.2.queuedTasks taskId ||
    acontains p.2.launchedTasks taskId)

/-- Slave::getFramework (slave.cpp:1396-1403). -/
def Slave.getFramework (s : SlaveState) (frameworkId : String) : Option Framework :=
  alookup s.frameworks frameworkId

/-- `framework->updates[deadline][status.task_id()] = update` (slave.cpp:1124):
    operator[] default-constructs the missing bucket. -/
def bucketInsert (updates : List (Nat × List (String × StatusUpdate))) (deadline : Nat)
    (taskId : String) (u : StatusUpdate) : List (Nat × List (String × StatusUpdate)) :=
  aupsert updates deadline (aupsert (Option.getD (alookup updates deadline) []) taskId u)

/-- Slave::statusUpdate (slave.cpp:1094-1133), the active version. `now` is
    elapsedTime(). Invalid updates (unknown framework, or no executor holding the
    task) are dropped with only a log line. -/
def Slave.statusUpdate (s : SlaveState) (now : Nat) (u : StatusUpdate) :
    SlaveState × List Event :=
  match Slave.getFramework s u.framework_id with
  | none => (s, [])
  | some fw =>
    match fw.findExecutorEntryByTask u.status.task_id with
    | none => (s, [])
    | some (k, e) =>
      let e1 := e.updateTaskState u.status.task_id u.status.state
      let e2 := if isTerminal u.status.state then e1.removeTask u.status.task_id else e1
      let evs := if isTerminal u.status.state
        then [Event.ResourcesChanged fw.id e2.info e2.resources]
        else []
      let fw' :=
        { fw with
          executors := aupsert fw.executors k e2,
          updates := bucketInsert fw.updates (now + STATUS_UPDATE_RETRY_INTERVAL)
            u.status.task_id u }
      ({ s with frameworks := aupsert s.frameworks u.framework_id fw' },
        evs ++ [Event.StatusUpdateToMaster s.master u true])

/-- Erase the task from the first deadline bucket that contains it, then stop
    (the `break` in slave.cpp:813-829). -/
def eraseFirstUpdate : List (Nat × List (String × StatusUpdate)) → String →
    List (Nat × List (String × StatusUpdate))
  | [], _ => []
  | (d, b) :: rest, tid =>
    if acontains b tid then (d, aerase b tid) :: rest
    else (d, b) :: eraseFirstUpdate rest tid

/-- Slave::statusUpdateAcknowledged (slave.cpp:813-829). The slave id argument is
    ignored by the code. -/
def Slave.statusUpdateAcknowledged (s : SlaveState) (slaveId frameworkId taskId : String) :
    SlaveState :=
  match Slave.getFramework s frameworkId with
  | none => s
  | some fw =>
    { s with
      frameworks := aupsert s.frameworks frameworkId
        { fw with updates := eraseFirstUpdate fw.updates taskId } }

/-- The inner loop of Slave::timeout (slave.cpp:1174-1187) for one framework:
    re-send every update in every bucket whose deadline has passed. -/
def Slave.timeoutFramework (master : String) (fw : Framework) (now : Nat) : List Event :=
  (fw.updates.filter (fun db => db.1 ≤ now)).flatMap
    (fun db => db.2.map (fun ku => Event.StatusUpdateToMaster master ku.2 true))

/-- Slave::timeout (slave.cpp:1171-1189): the retry-timer tick; it mutates no
    state, it only re-sends. -/
def Slave.timeout (s : SlaveState) (now : Nat) : List Event :=
  s.frameworks.foldr (fun p acc => Slave.timeoutFramework s.master p.2 now ++ acc) []

/-- The synthetic TASK_LOST update built in Slave::killTask (slave.cpp:684-694 and
    707-718): no executor id, sequence -1. -/
def lostUpdate (frameworkId slaveId taskId : String) (now : Nat) : StatusUpdate :=
  { framework_id := frameworkId, slave_id := slaveId, executor_id := none,
    status := { task_id := taskId, state := TaskState.TASK_LOST },
    timestamp := now, sequence := -1 }

/-- The synthetic TASK_KILLED update built in Slave::killTask (slave.cpp:727-738):
    carries the executor id, sequence 0. -/
def killedUpdate (frameworkId executorId slaveId taskId : String) (now : Nat) : StatusUpdate :=
  { framework_id := frameworkId, slave_id := slaveId, executor_id := some executorId,
    status := { task_id := taskId, state := TaskState.TASK_KILLED },
    timestamp := now, sequence := 0 }

/-- Slave::killTask (slave.cpp:672-747). -/
def Slave.killTask (s : SlaveState) (now : Nat) (frameworkId taskId : String) :
    SlaveState × List Event :=
  match Slave.getFramework s frameworkId with
  | none =>
    (s, [Event.StatusUpdateToMaster s.master (lostUpdate frameworkId s.id taskId now) false])
  | some fw =>
    match fw.findExecutorEntryByTask taskId with
    | none =>
      (s, [Event.StatusUpdateToMaster s.master (lostUpdate fw.id s.id taskId now) false])
    | some (k, e) =>
      if e.pid = "" then
        let e' := e.removeTask taskId
        let fw' := { fw with executors := aupsert fw.executors k e' }
        ({ s with frameworks := aupsert s.frameworks frameworkId fw' },
          [Event.ResourcesChanged fw.id e.info e'.resources,
           Event.StatusUpdateToMaster s.master (killedUpdate fw.id e.id s.id taskId now) false])
      else
        (s, [Event.KillTaskToExecutor e.pid frameworkId taskId])

/-- The queued-task flush loop of Slave::registerExecutor (slave.cpp:957-967):
    add each queued task to the executor and send it as a RunTask message; a CHECK
    failure inside addTask aborts (`none`). -/
def Slave.flushQueued (frameworkId : String) (frameworkInfo : FrameworkInfo)
    (frameworkPid : String) (e : Executor) :
    List (String × TaskDescription) → Option (Executor × List Event)
  | [] => some (e, [])
  | (_, task) :: rest =>
    match e.addTask task with
    | none => none
    | some e1 =>
      match Slave.flushQueued frameworkId frameworkInfo frameworkPid e1 rest with
      | none => none
      | some (e2, evs) =>
        some (e2, Event.RunTaskToExecutor e.pid frameworkId frameworkInfo frameworkPid task :: evs)

/-- Slave::registerExecutor (slave.cpp:903-971). `callerPid` is from(). On any
    precondition violation the reply is KillExecutor and nothing changes; on
    success the endpoint is recorded, resourcesChanged is called, the RegisterReply
    is sent, queued tasks are flushed and the queue is cleared. -/
def Slave.registerExecutor (s : SlaveState) (callerPid : String)
    (frameworkId executorId : String) : Option (SlaveState × List Event) :=
  match Slave.getFramework s frameworkId with
  | none => some (s, [Event.KillExecutorTo callerPid])
  | some fw =>
    match fw.getExecutor executorId with
    | none => some (s, [Event.KillExecutorTo callerPid])
    | some e =>
      if e.pid ≠ "" then some (s, [Event.KillExecutorTo callerPid])
      else
        let e1 := { e with pid := callerPid }
        match Slave.flushQueued fw.id fw.info fw.pid e1 e1.queuedTasks with
        | none => none
        | some (e2, evs) =>
          let e3 := { e2 with queuedTasks := [] }
          let fw' := { fw with executors := aupsert fw.executors executorId e3 }
          some ({ s with frameworks := aupsert s.frameworks frameworkId fw' },
            Event.ResourcesChanged fw.id e1.info e1.resources
              :: Event.RegisterReplyToExecutor e1.pid fw.id e1.id s.id s.hostname e1.info.data
              :: evs)

/-- Slave::runTask (slave.cpp:589-669). When the chosen executor does not exist,
    the source computes `getUniqueWorkDirectory(framework->id, executor->id)`
    (slave.cpp:632) with `executor == NULL`: the dereference of the null pointer is
    modelled as `none` (the crash happens before the new executor is created, so
    the create/launch/reap steps of lines 634-667 are unreachable). -/
def Slave.runTask (s : SlaveState) (frameworkInfo : FrameworkInfo) (frameworkId : String)
    (pid : String) (task : TaskDescription) : Option (SlaveState × List Event) :=
  let fw := match Slave.getFramework s frameworkId with
    | some fw => fw
    | none => { id := frameworkId, info := frameworkInfo, pid := pid,
                executors := [], updates := [] }
  let s1 := { s with frameworks := aupsert s.frameworks frameworkId fw }
  let executorId := match task.executor with
    | some einfo => einfo.executor_id
    | none => fw.info.executor.executor_id
  match fw.getExecutor executorId with
  | some e =>
    if e.pid = "" then
      let e1 := { e with queuedTasks := aupsert e.queuedTasks task.task_id task }
      let fw' := { fw with executors := aupsert fw.executors executorId e1 }
      some ({ s1 with frameworks := aupsert s1.frameworks frameworkId fw' }, [])
    else
      match e.addTask task with
      | none => none
      | some e1 =>
        let fw' := { fw with executors := aupsert fw.executors executorId e1 }
        some ({ s1 with frameworks := aupsert s1.frameworks frameworkId fw' },
              [Event.RunTaskToExecutor e.pid fw.id fw.info fw.pid task,
               Event.ResourcesChanged fw.id e.info e1.resources])
  | none => none

/-- The base directory choice of Slave::getUniqueWorkDirectory (slave.cpp:1683-1688):
    conf "work_dir" if set, else conf "home", else ".". -/
def workDirBase (confWorkDir confHome : Option String) : String :=
  match confWorkDir with
  | some w => w
  | none =>
    match confHome with
    | some h => h
    | none => "."

/-- INT_MAX, the bound of the search loop in slave.cpp:1704. -/
def INT_MAX : Nat := 2147483647

/-- The search loop of Slave::getUniqueWorkDirectory (slave.cpp:1704-1709): try
    `dir ++ i` for i = 0, 1, ... until a directory that does not exist is found;
    if the fuel (INT_MAX iterations) runs out the stream is left reset to `dir`. -/
def findFreeDir (dir : String) (existing : List String) : Nat → Nat → String
  | 0, _ => dir
  | fuel + 1, i =>
    let candidate := dir ++ toString i
    if candidate ∈ existing then findFreeDir dir existing fuel (i + 1) else candidate

/-- The fixed path stem `<base>/work/slave-<slave_id>/fw-<framework_id>-<executor_id>/`
    built in slave.cpp:1690-1699 (note the appended "/work"). -/
def uniqueDirStem (confWorkDir confHome : Option String)
    (slaveId frameworkId executorId : String) : String :=
  workDirBase confWorkDir confHome ++ "/work" ++ "/slave-" ++ slaveId ++
    "/fw-" ++ frameworkId ++ "-" ++ executorId ++ "/"

/-- Slave::getUniqueWorkDirectory (slave.cpp:1680-1712). The filesystem is
    modelled as the list of directories that already exist. -/
def Slave.getUniqueWorkDirectory (confWorkDir confHome : Option String)
    (slaveId frameworkId executorId : String) (existing : List String) : String :=
  findFreeDir (uniqueDirStem confWorkDir confHome slaveId frameworkId executorId)
    existing INT_MAX 0

/-- Number of deadline buckets of an updates structure that contain the task. -/
def bucketsContaining (updates : List (Nat × List (String × StatusUpdate)))
    (taskId : String) : Nat :=
  (updates.filter (fun db => acontains db.2 taskId)).length

theorem alookup_aupsert {K V : Type} [DecidableEq K] (l : List (K × V)) (k : K) (v : V) :
    alookup (aupsert l k v) k = some v := by
  induction l with
  | nil => simp [aupsert, alookup]
  | cons p rest ih =>
    obtain ⟨k', v'⟩ := p
    by_cases hk : k' = k
    · simp [aupsert, hk, alookup]
    · simp [aupsert, hk, alookup, ih]

theorem alookup_aupsert_ne {K V : Type} [DecidableEq K] (l : List (K × V)) (k k' : K) (v : V)
    (hne : k' ≠ k) : alookup (aupsert l k v) k' = alookup l k' := by
  induction l with
  | nil => simp [aupsert, alookup, Ne.symm hne]
  | cons p rest ih =>
    obtain ⟨k0, v0⟩ := p
    by_cases hk : k0 = k
    · subst hk
      simp [aupsert, alookup, Ne.symm hne]
    · simp [aupsert, hk, alookup, ih]

theorem alookup_aerase {K V : Type} [DecidableEq K] (l : List (K × V)) (k : K) :
    alookup (aerase l k) k = none := by
  induction l with
  | nil => simp [aerase, alookup]
  | cons p rest ih =>
    obtain ⟨k0, v0⟩ := p
    by_cases hk : k0 = k
    · simp [aerase, hk, ih]
    · simp [aerase, hk, alookup, ih]

theorem aupsert_aupsert {K V : Type} [DecidableEq K] (l : List (K × V)) (k : K) (v w : V) :
    aupsert (aupsert l k v) k w = aupsert l k w := by
  induction l with
  | nil => simp [aupsert]
  | cons p rest ih =>
    obtain ⟨k0, v0⟩ := p
    by_cases hk : k0 = k
    · simp [aupsert, hk]
    · simp [aupsert, hk, ih]

theorem alookup_isSome_of_mem {K V : Type} [DecidableEq K] {l : List (K × V)} {k : K} {v : V}
    (h : (k, v) ∈ l) : (alookup l k).isSome = true := by
  induction l with
  | nil => simp at h
  | cons p rest ih =>
    obtain ⟨k0, v0⟩ := p
    rcases List.mem_cons.mp h with heq | hmem
    · obtain ⟨h1, h2⟩ := Prod.mk.injEq .. ▸ heq
      simp_all [alookup]
    · by_cases hk : k0 = k
      · simp [alookup, hk]
      · simp [alookup, hk, ih hmem]

theorem not_contains_of_bucketsContaining_zero
    {updates : List (Nat × List (String × StatusUpdate))} {tid : String}
    (h : bucketsContaining updates tid = 0) :
    ∀ db ∈ updates, acontains db.2 tid = false := by
  intro db hdb
  have hnil : updates.filter (fun db => acontains db.2 tid) = [] :=
    List.length_eq_zero.mp h
  have := List.filter_eq_nil_iff.mp hnil db hdb
  simpa using this

theorem eraseFirstUpdate_clears
    {updates : List (Nat × List (String × StatusUpdate))} {tid : String}
    (h : bucketsContaining updates tid ≤ 1) :
    ∀ db ∈ eraseFirstUpdate updates tid, acontains db.2 tid = false := by
  induction updates with
  | nil => intro db hdb; simp [eraseFirstUpdate] at hdb
  | cons p rest ih =>
    obtain ⟨d, b⟩ := p
    by_cases hc : acontains b tid
    · have hrest : bucketsContaining rest tid = 0 := by
        simp [bucketsContaining, List.filter_cons, hc] at h
        simpa [bucketsContaining] using h
      intro db hdb
      simp only [eraseFirstUpdate, hc, if_pos] at hdb
      rcases List.mem_cons.mp hdb with heq | hmem
      · subst heq
        simp [acontains, alookup_aerase]
      · exact not_contains_of_bucketsContaining_zero hrest db hmem
    · have hrest : bucketsContaining rest tid ≤ 1 := by
        simpa [bucketsContaining, List.filter_cons, hc] using h
      intro db hdb
      simp only [eraseFirstUpdate, hc, if_neg, Bool.false_eq_true, not_false_iff] at hdb
      rcases List.mem_cons.mp hdb with heq | hmem
      · subst heq
        simpa using hc
      · exact ih hrest db hmem

theorem eraseFirstUpdate_of_not_contains
    {updates : List (Nat × List (String × StatusUpdate))} {tid : String}
    (h : ∀ db ∈ updates, acontains db.2 tid = false) :
    eraseFirstUpdate updates tid = updates := by
  induction updates with
  | nil => rfl
  | cons p rest ih =>
    obtain ⟨d, b⟩ := p
    have hb : acontains b tid = false := h (d, b) (List.mem_cons_self _ _)
    simp only [eraseFirstUpdate, hb]
    simp [ih (fun db hdb => h db (List.mem_cons_of_mem _ hdb))]

theorem mem_timeoutFramework {master : String} {fw : Framework} {now : Nat}
    {dest : String} {u : StatusUpdate} {r : Bool}
    (h : Event.StatusUpdateToMaster dest u r ∈ Slave.timeoutFramework master fw now) :
    ∃ d b, (d, b) ∈ fw.updates ∧ d ≤ now ∧ ∃ k, (k, u) ∈ b := by
  simp only [Slave.timeoutFramework, List.mem_flatMap, List.mem_filter, List.mem_map] at h
  obtain ⟨⟨d, b⟩, ⟨hmem, hle⟩, ⟨k, u'⟩, hku, heq⟩ := h
  obtain ⟨-, hu, -⟩ := Event.StatusUpdateToMaster.injEq .. ▸ heq
  exact ⟨d, b, hmem, by simpa using hle, k, hu ▸ hku⟩

theorem findFreeDir_eq (dir : String) (existing : List String) :
    ∀ (fuel i N : Nat), i ≤ N → N - i < fuel →
      (∀ m, i ≤ m → m < N → dir ++ toString m ∈ existing) →
      dir ++ toString N ∉ existing →
      findFreeDir dir existing fuel i = dir ++ toString N := by
  intro fuel
  induction fuel with
  | zero => intro i N _ h2 _ _; omega
  | succ f ih =>
    intro i N h1 h2 h3 h4
    by_cases hi : i = N
    · subst hi
      simp [findFreeDir, h4]
    · have hilt : i < N := lt_of_le_of_ne h1 hi
      have hmem : dir ++ toString i ∈ existing := h3 i le_rfl hilt
      simp only [findFreeDir, hmem, if_pos]
      exact ih (i + 1) N (by omega) (by omega) (fun m hm1 hm2 => h3 m (by omega) hm2) h4

/-- A concrete executor's info used in the test scenarios. -/
def einfo1 : ExecutorInfo := { executor_id := "e1", uri := "hdfs://exec", data := "opaque" }

/-- A concrete framework info whose default executor is `einfo1`. -/
def fwinfo1 : FrameworkInfo := { name := "fw-one", user := "alice", executor := einfo1 }

/-- A concrete launched task `t1` of executor `e1`. -/
def task1 : Task :=
  { framework_id := "f1", executor_id := "e1", state := TaskState.TASK_RUNNING,
    name := "task-one", task_id := "t1", slave_id := "s1", resources := [("cpus", 1)] }

/-- A concrete registered executor holding launched task `t1`. -/
def exec1 : Executor :=
  { id := "e1", info := einfo1, frameworkId := "f1", directory := "/w/0",
    pid := "exec-pid-1", resources := [("cpus", 1)],
    queuedTasks := [], launchedTasks := [("t1", task1)] }

/-- A concrete framework `f1` owning `exec1`. -/
def fw1 : Framework :=
  { id := "f1", info := fwinfo1, pid := "sched-pid-1",
    executors := [("e1", exec1)], updates := [] }

/-- A concrete slave state holding framework `f1`. -/
def slave1 : SlaveState :=
  { id := "s1", hostname := "host-a", master := "master-pid",
    frameworks := [("f1", fw1)],
    statistics := { validStatusUpdates := 0, invalidStatusUpdates := 0,
                    validFrameworkMessages := 0, invalidFrameworkMessages := 0 } }

/-- A RUNNING (non-terminal) status update for `t1` from the executor. -/
def updRunning : StatusUpdate :=
  { framework_id := "f1", slave_id := "s1", executor_id := some "e1",
    status := { task_id := "t1", state := TaskState.TASK_RUNNING },
    timestamp := 0, sequence := 0 }

/-- A second RUNNING update for `t1`, arriving later. -/
def updRunning2 : StatusUpdate := { updRunning with timestamp := 2 }

/-- The state after `updRunning` is processed at time 0: one deadline bucket (10). -/
def slaveOneBucket : SlaveState := (Slave.statusUpdate slave1 0 updRunning).1

/-- The state after a second update at time 2: buckets 10 and 12 both hold `t1`. -/
def slaveTwoBuckets : SlaveState := (Slave.statusUpdate slaveOneBucket 2 updRunning2).1

/-- `slaveTwoBuckets` after one acknowledgement for `t1`: only the first bucket
    (deadline 10) was cleared, the entry under deadline 12 survives. -/
def slaveAcked : SlaveState := Slave.statusUpdateAcknowledged slaveTwoBuckets "s1" "f1" "t1"

theorem removeTask_queued (e : Executor) (tid : String) :
    alookup (e.removeTask tid).queuedTasks tid = none := by
  unfold Executor.removeTask
  cases h : alookup e.launchedTasks tid <;> simp [h, alookup_aerase]

theorem removeTask_launched (e : Executor) (tid : String) :
    alookup (e.removeTask tid).launchedTasks tid = none := by
  unfold Executor.removeTask
  cases h : alookup e.launchedTasks tid <;> simp [h, alookup_aerase]

theorem removeTask_info (e : Executor) (tid : String) :
    (e.removeTask tid).info = e.info := by
  unfold Executor.removeTask
  cases h : alookup e.launchedTasks tid <;> simp [h]

theorem updateTaskState_info (e : Executor) (tid : String) (st : TaskState) :
    (e.updateTaskState tid st).info = e.info := by
  unfold Executor.updateTaskState
  cases h : alookup e.launchedTasks tid <;> simp [h]

theorem updateTaskState_launched (e : Executor) (tid : String) (st : TaskState) (t : Task)
    (h : alookup e.launchedTasks tid = some t) :
    alookup (e.updateTaskState tid st).launchedTasks tid = some { t with state := st } := by
  unfold Executor.updateTaskState
  simp [h, alookup_aupsert]

theorem updateThenRemove_resources (e : Executor) (tid : String) (st : TaskState) (t : Task)
    (h : alookup e.launchedTasks tid = some t) :
    ((e.updateTaskState tid st).removeTask tid).resources
      = Resources.sub e.resources t.resources := by
  unfold Executor.updateTaskState Executor.removeTask
  simp [h, alookup_aupsert]

theorem bucketInsert_lookup (ups : List (Nat × List (String × StatusUpdate))) (d : Nat)
    (tid : String) (u : StatusUpdate) :
    alookup (Option.getD (alookup (bucketInsert ups d tid u) d) []) tid = some u := by
  simp [bucketInsert, alookup_aupsert]

/-- Claim C3: the claim expects runTask with a fresh executor id to complete
    without error, creating the executor with a fresh working directory, queueing
    the task, launching the executor and reaping a non-zero pid. The source
    instead dereferences the null executor pointer (`executor->id`,
    slave.cpp:632) before the executor is created; the crash is the `none`
    result. This theorem evaluates the embedded code at a failing input: a task
    for the fresh framework "f2" whose default executor has no record yet. -/
theorem runTask_new_executor_crashes :
    Slave.runTask slave1 fwinfo1 "f2" "sched-2"
        { task_id := "t2", name := "task-two", slave_id := "s1",
          resources := [("cpus", 1)], executor := none }
      = none := by decide

/-- Claim C10 (amended): getUniqueWorkDirectory returns
    `<work_dir>/work/slave-<slave_id>/fw-<frameworkId>-<executorId>/<N>` — the
    source appends a "/work" component to the configured base (slave.cpp:1690) —
    where N is the smallest non-negative integer for which that directory does
    not yet exist (N below the INT_MAX loop bound). -/
theorem getUniqueWorkDirectory_spec (confWorkDir confHome : Option String)
    (slaveId frameworkId executorId : String) (existing : List String) (N : Nat)
    (hN : N < INT_MAX)
    (hbusy : ∀ m, m < N →
      uniqueDirStem confWorkDir confHome slaveId frameworkId executorId ++ toString m
        ∈ existing)
    (hfree : uniqueDirStem confWorkDir confHome slaveId frameworkId executorId ++ toString N
        ∉ existing) :
    Slave.getUniqueWorkDirectory confWorkDir confHome slaveId frameworkId executorId existing
      = uniqueDirStem confWorkDir confHome slaveId frameworkId executorId ++ toString N :=
  findFreeDir_eq _ existing INT_MAX 0 N (Nat.zero_le N) (by simpa using hN)
    (fun m _ hm => hbusy m hm) hfree

/-- Claim C10 counterexample: with the work_dir option set to "/var" the returned
    path is "/var/work/slave-s1/fw-f1-e1/0", not the claim's
    "/var/slave-s1/fw-f1-e1/0": the source inserts a "/work" component. -/
theorem getUniqueWorkDirectory_path_cex :
    Slave.getUniqueWorkDirectory (some "/var") none "s1" "f1" "e1" []
        = "/var/work/slave-s1/fw-f1-e1/0" ∧
      Slave.getUniqueWorkDirectory (some "/var") none "s1" "f1" "e1" []
        ≠ "/var/slave-s1/fw-f1-e1/0" := by
  exact ⟨by decide, by decide⟩

/-- A directory listing in which the suffixes 0 and 1 are already taken. -/
def dirsTaken : List String :=
  ["/var/work/slave-s1/fw-f1-e1/0", "/var/work/slave-s1/fw-f1-e1/1"]

theorem getUniqueWorkDirectory_spec_witness :
    Slave.getUniqueWorkDirectory (some "/var") none "s1" "f1" "e1" dirsTaken
      = uniqueDirStem (some "/var") none "s1" "f1" "e1" ++ toString 2 :=
  getUniqueWorkDirectory_spec (some "/var") none "s1" "f1" "e1" dirsTaken 2
    (by decide) (by decide) (by decide)

/-- An update whose framework "fX" is unknown to `slave1`. -/
def updUnknownFw : StatusUpdate :=
  { framework_id := "fX", slave_id := "s1", executor_id := none,
    status := { task_id := "t1", state := TaskState.TASK_RUNNING },
    timestamp := 0, sequence := 0 }

/-- Claim C8 counterexample: an update for the unknown framework "fX" is dropped
    with no message and no registry change, but the invalidStatusUpdates counter
    is NOT incremented — the active Slave::statusUpdate only logs a warning. -/
theorem statusUpdate_invalid_counter_cex :
    Slave.getFramework slave1 "fX" = none ∧
      Slave.statusUpdate slave1 5 updUnknownFw = (slave1, []) ∧
      (Slave.statusUpdate slave1 5 updUnknownFw).1.statistics.invalidStatusUpdates
        ≠ slave1.statistics.invalidStatusUpdates + 1 := by
  exact ⟨by decide, by decide, by decide⟩

/-- Claim C8 (amended): a StatusUpdate whose framework cannot be found, or whose
    framework has no executor holding the task id, is dropped — no message is
    sent and the registry is unchanged — but the invalidStatusUpdates counter is
    left unchanged rather than incremented. -/
theorem statusUpdate_invalid_dropped (s : SlaveState) (now : Nat) (u : StatusUpdate)
    (h : Slave.getFramework s u.framework_id = none ∨
      ∃ fw, Slave.getFramework s u.framework_id = some fw ∧
        fw.findExecutorEntryByTask u.status.task_id = none) :
    Slave.statusUpdate s now u = (s, []) ∧
      (Slave.statusUpdate s now u).1.statistics = s.statistics := by
  rcases h with h | ⟨fw, hfw, he⟩
  · constructor <;> simp [Slave.statusUpdate, h]
  · constructor <;> simp [Slave.statusUpdate, hfw, he]

theorem statusUpdate_invalid_dropped_witness :
    Slave.statusUpdate slave1 5 updUnknownFw = (slave1, []) ∧
      (Slave.statusUpdate slave1 5 updUnknownFw).1.statistics = slave1.statistics :=
  statusUpdate_invalid_dropped slave1 5 updUnknownFw (Or.inl (by decide))

/-- Claim C2 counterexample: for a valid update (framework "f1" and owning
    executor "e1" both exist in `slave1`) the complete effect list of
    statusUpdate is just the reliable StatusUpdate to the master: no
    S2E_STATUS_UPDATE_ACK message is sent back to the executor. -/
theorem statusUpdate_no_ack_cex :
    (Slave.getFramework slave1 "f1").isSome = true ∧
      (fw1.findExecutorEntryByTask "t1").isSome = true ∧
      (Slave.statusUpdate slave1 0 updRunning).2
        = [Event.StatusUpdateToMaster "master-pid" updRunning true] := by
  exact ⟨by decide, by decide, by decide⟩

/-- Claim C2 (amended): after processing a StatusUpdate whose framework and owning
    executor exist, the agent sends the reliable StatusUpdate to the master, but no
    Ack message goes back to the executor: the active statusUpdate emits no
    S2E_STATUS_UPDATE_ACK at all. -/
theorem statusUpdate_sends_no_ack (s : SlaveState) (now : Nat) (u : StatusUpdate)
    (fw : Framework) (k : String) (e : Executor)
    (hfw : Slave.getFramework s u.framework_id = some fw)
    (he : fw.findExecutorEntryByTask u.status.task_id = some (k, e)) :
    Event.StatusUpdateToMaster s.master u true ∈ (Slave.statusUpdate s now u).2 ∧
      (Slave.statusUpdate s now u).2.filter Event.isAck = [] := by
  simp only [Slave.statusUpdate, hfw, he]
  cases hterm : isTerminal u.status.state <;>
    simp [hterm, Event.isAck, List.filter]

theorem statusUpdate_sends_no_ack_witness :
    Event.StatusUpdateToMaster slave1.master updRunning true
        ∈ (Slave.statusUpdate slave1 0 updRunning).2 ∧
      (Slave.statusUpdate slave1 0 updRunning).2.filter Event.isAck = [] :=
  statusUpdate_sends_no_ack slave1 0 updRunning fw1 "e1" exec1 (by decide) (by decide)

/-- Claim C7: registerExecutor with an unknown framework, an unknown executor
    record, or an executor whose endpoint is already non-empty replies
    KillExecutor to the caller and leaves the registry unchanged. -/
theorem registerExecutor_invalid_spec (s : SlaveState) (callerPid fid eid : String) :
    (Slave.getFramework s fid = none →
      Slave.registerExecutor s callerPid fid eid
        = some (s, [Event.KillExecutorTo callerPid])) ∧
    (∀ fw, Slave.getFramework s fid = some fw →
      (fw.getExecutor eid = none →
        Slave.registerExecutor s callerPid fid eid
          = some (s, [Event.KillExecutorTo callerPid])) ∧
      (∀ e, fw.getExecutor eid = some e → e.pid ≠ "" →
        Slave.registerExecutor s callerPid fid eid
          = some (s, [Event.KillExecutorTo callerPid]))) := by
  refine ⟨fun h => by simp [Slave.registerExecutor, h], fun fw hfw => ⟨?_, ?_⟩⟩
  · intro h
    simp [Slave.registerExecutor, hfw, h]
  · intro e he hpid
    simp [Slave.registerExecutor, hfw, he, hpid]

theorem registerExecutor_invalid_witness :
    Slave.registerExecutor slave1 "caller-pid" "fX" "e1"
      = some (slave1, [Event.KillExecutorTo "caller-pid"]) :=
  (registerExecutor_invalid_spec slave1 "caller-pid" "fX" "e1").1 (by decide)

/-- Claim C4: killTask: unknown framework, or no executor holding the task, sends
    an unreliable TASK_LOST update to the master and changes no registry state;
    an owning but unregistered executor (empty endpoint) has the task removed
    locally, resourcesChanged called, and an unreliable TASK_KILLED update sent
    with no message to the executor; a registered executor is forwarded KillTask
    and the registry is left unchanged. -/
theorem killTask_spec (s : SlaveState) (now : Nat) (fid tid : String) :
    (Slave.getFramework s fid = none →
      Slave.killTask s now fid tid
        = (s, [Event.StatusUpdateToMaster s.master (lostUpdate fid s.id tid now) false])) ∧
    (∀ fw, Slave.getFramework s fid = some fw →
      (fw.findExecutorEntryByTask tid = none →
        Slave.killTask s now fid tid
          = (s, [Event.StatusUpdateToMaster s.master (lostUpdate fw.id s.id tid now) false])) ∧
      (∀ k e, fw.findExecutorEntryByTask tid = some (k, e) →
        (e.pid = "" →
          Slave.killTask s now fid tid
            = ({ s with frameworks := aupsert s.frameworks fid { fw with executors := aupsert fw.executors k (e.removeTask tid) } },
               [Event.ResourcesChanged fw.id e.info (e.removeTask tid).resources,
                Event.StatusUpdateToMaster s.master
                  (killedUpdate fw.id e.id s.id tid now) false])
            ∧ alookup (e.removeTask tid).queuedTasks tid = none
            ∧ alookup (e.removeTask tid).launchedTasks tid = none) ∧
        (e.pid ≠ "" →
          Slave.killTask s now fid tid
            = (s, [Event.KillTaskToExecutor e.pid fid tid])))) := by
  refine ⟨fun h => by simp [Slave.killTask, h], fun fw hfw => ⟨?_, ?_⟩⟩
  · intro h
    simp [Slave.killTask, hfw, h]
  · intro k e he
    refine ⟨fun hpid => ⟨?_, removeTask_queued e tid, removeTask_launched e tid⟩,
      fun hpid => ?_⟩
    · simp [Slave.killTask, hfw, he, hpid]
    · simp [Slave.killTask, hfw, he, hpid]

theorem killTask_spec_witness :
    Slave.killTask slave1 5 "fX" "t9"
      = (slave1,
         [Event.StatusUpdateToMaster slave1.master (lostUpdate "fX" slave1.id "t9" 5) false]) :=
  (killTask_spec slave1 5 "fX" "t9").1 (by decide)

/-- Claim C9 counterexample: in `slaveTwoBuckets` the task "t1" has pending
    updates under the two deadlines 10 and 12 (reached by two status updates at
    times 0 and 2). After one acknowledgement, a second identical
    acknowledgement is not a no-op: it erases the surviving entry too. -/
theorem statusUpdateAcknowledged_duplicate_cex :
    (Slave.getFramework slaveTwoBuckets "f1").map
        (fun fw => bucketsContaining fw.updates "t1") = some 2 ∧
      Slave.statusUpdateAcknowledged slaveAcked "s1" "f1" "t1" ≠ slaveAcked := by
  exact ⟨by decide, by decide⟩

/-- Claim C9 (amended): processing the same StatusUpdateAcknowledged twice in
    succession equals processing it once, provided the task id has pending
    updates in at most one deadline bucket of its framework (when it sits in
    several buckets the second acknowledgement erases a further entry, as the
    counterexample shows). -/
theorem statusUpdateAcknowledged_idempotent (s : SlaveState)
    (slaveId fid tid : String) (fw : Framework)
    (hfw : Slave.getFramework s fid = some fw)
    (hcount : bucketsContaining fw.updates tid ≤ 1) :
    Slave.statusUpdateAcknowledged (Slave.statusUpdateAcknowledged s slaveId fid tid)
        slaveId fid tid
      = Slave.statusUpdateAcknowledged s slaveId fid tid := by
  have h1 : Slave.statusUpdateAcknowledged s slaveId fid tid
      = { s with frameworks := aupsert s.frameworks fid { fw with updates := eraseFirstUpdate fw.updates tid } } := by
    simp [Slave.statusUpdateAcknowledged, hfw]
  have hclean := eraseFirstUpdate_clears hcount
  have hnoop : eraseFirstUpdate (eraseFirstUpdate fw.updates tid) tid
      = eraseFirstUpdate fw.updates tid := eraseFirstUpdate_of_not_contains hclean
  rw [h1]
  simp [Slave.statusUpdateAcknowledged, Slave.getFramework, alookup_aupsert, hnoop,
    aupsert_aupsert]

/-- The framework record of `slaveOneBucket` (one bucket, deadline 10, holds t1). -/
def fwOneBucket : Framework := (Slave.getFramework slaveOneBucket "f1").getD fw1

theorem statusUpdateAcknowledged_idempotent_witness :
    Slave.statusUpdateAcknowledged
        (Slave.statusUpdateAcknowledged slaveOneBucket "s1" "f1" "t1") "s1" "f1" "t1"
      = Slave.statusUpdateAcknowledged slaveOneBucket "s1" "f1" "t1" :=
  statusUpdateAcknowledged_idempotent slaveOneBucket "s1" "f1" "t1" fwOneBucket
    (by decide) (by decide)

/-- Claim C5 counterexample: "t1" has pending updates in the two buckets 10 and
    12 of `slaveTwoBuckets`; after a valid acknowledgement at time 20, the timer
    tick at time 20 still re-sends the stored update `updRunning2` for
    ("f1","t1"), whose deadline 12 is ≤ the acknowledgement time. -/
theorem ack_retirement_cex :
    (Slave.getFramework slaveTwoBuckets "f1").map
        (fun fw => bucketsContaining fw.updates "t1") = some 2 ∧
      updRunning2.framework_id = "f1" ∧ updRunning2.status.task_id = "t1" ∧
      Event.StatusUpdateToMaster "master-pid" updRunning2 true
        ∈ Slave.timeout slaveAcked 20 := by
  exact ⟨by decide, by decide, by decide, by decide⟩

/-- Claim C5 (amended): after a valid StatusUpdateAcknowledged, provided the task
    id had pending updates in at most one deadline bucket, no later timer tick
    re-sends a stored update for that task from that framework: all buckets are
    free of the task id, and anything the retry timer emits for the framework
    comes from an entry keyed by a different task id. (With the same task stored
    under two deadlines the acknowledgement clears only the first bucket — see
    the counterexample.) -/
theorem ack_retirement_single_bucket (s : SlaveState) (slaveId fid tid : String)
    (fw : Framework) (master : String)
    (hfw : Slave.getFramework s fid = some fw)
    (hcount : bucketsContaining fw.updates tid ≤ 1) :
    ∃ fw',
      Slave.getFramework (Slave.statusUpdateAcknowledged s slaveId fid tid) fid = some fw' ∧
      (∀ d b, (d, b) ∈ fw'.updates → alookup b tid = none) ∧
      (∀ now dest u r,
        Event.StatusUpdateToMaster dest u r ∈ Slave.timeoutFramework master fw' now →
        ∃ d b k, (d, b) ∈ fw'.updates ∧ (k, u) ∈ b ∧ k ≠ tid) := by
  refine ⟨{ fw with updates := eraseFirstUpdate fw.updates tid }, ?_, ?_, ?_⟩
  · simp only [Slave.statusUpdateAcknowledged, hfw]
    simp [Slave.getFramework, alookup_aupsert]
  · intro d b hdb
    have := eraseFirstUpdate_clears hcount (d, b) hdb
    simpa [acontains, Option.isSome_iff_exists] using this
  · intro now dest u r hmem
    obtain ⟨d, b, hdb, -, k, hku⟩ := mem_timeoutFramework hmem
    refine ⟨d, b, k, hdb, hku, ?_⟩
    intro hk
    subst hk
    have hsome := alookup_isSome_of_mem hku
    have hnone := eraseFirstUpdate_clears hcount (d, b) hdb
    simp [acontains, hsome] at hnone

/-- Claim C1: for a StatusUpdate whose framework and owning executor both exist,
    statusUpdate records the update's state on the launched task; when the state
    is terminal (FINISHED/FAILED/KILLED/LOST) the task leaves launchedTasks and
    resourcesChanged is called with the executor's reduced resource vector; a
    reliable StatusUpdate message goes to the current master; and the update is
    stored in the framework's updates under deadline now +
    STATUS_UPDATE_RETRY_INTERVAL (10), indexed by task id. -/
theorem statusUpdate_valid_spec (s : SlaveState) (now : Nat) (u : StatusUpdate)
    (fw : Framework) (k : String) (e : Executor)
    (hfw : Slave.getFramework s u.framework_id = some fw)
    (he : fw.findExecutorEntryByTask u.status.task_id = some (k, e)) :
    ∃ fw' e',
      Slave.getFramework (Slave.statusUpdate s now u).1 u.framework_id = some fw' ∧
      alookup fw'.executors k = some e' ∧
      alookup (Option.getD (alookup fw'.updates (now + STATUS_UPDATE_RETRY_INTERVAL)) [])
          u.status.task_id = some u ∧
      Event.StatusUpdateToMaster s.master u true ∈ (Slave.statusUpdate s now u).2 ∧
      (isTerminal u.status.state = false →
        ∀ t, alookup e.launchedTasks u.status.task_id = some t →
          alookup e'.launchedTasks u.status.task_id = some { t with state := u.status.state }) ∧
      (isTerminal u.status.state = true →
        alookup e'.launchedTasks u.status.task_id = none ∧
        Event.ResourcesChanged fw.id e.info e'.resources ∈ (Slave.statusUpdate s now u).2 ∧
        ∀ t, alookup e.launchedTasks u.status.task_id = some t →
          e'.resources = Resources.sub e.resources t.resources) := by
  cases hterm : isTerminal u.status.state
  all_goals simp only [Slave.statusUpdate, hfw, he, hterm, Bool.false_eq_true, if_false,
    if_true, ite_false, ite_true]
  · refine ⟨{ fw with executors := aupsert fw.executors k (e.updateTaskState u.status.task_id u.status.state), updates := bucketInsert fw.updates (now + STATUS_UPDATE_RETRY_INTERVAL) u.status.task_id u }, e.updateTaskState u.status.task_id u.status.state, ?_, ?_, ?_, ?_, ?_, ?_⟩
    · simp [Slave.getFramework, alookup_aupsert]
    · simp [alookup_aupsert]
    · simpa using bucketInsert_lookup fw.updates (now + STATUS_UPDATE_RETRY_INTERVAL)
        u.status.task_id u
    · simp
    · intro _ t ht
      exact updateTaskState_launched e u.status.task_id u.status.state t ht
    · intro hcontra
      simp at hcontra
  · refine ⟨{ fw with executors := aupsert fw.executors k ((e.updateTaskState u.status.task_id u.status.state).removeTask u.status.task_id), updates := bucketInsert fw.updates (now + STATUS_UPDATE_RETRY_INTERVAL) u.status.task_id u }, (e.updateTaskState u.status.task_id u.status.state).removeTask u.status.task_id, ?_, ?_, ?_, ?_, ?_, ?_⟩
    · simp [Slave.getFramework, alookup_aupsert]
    · simp [alookup_aupsert]
    · simpa using bucketInsert_lookup fw.updates (now + STATUS_UPDATE_RETRY_INTERVAL)
        u.status.task_id u
    · simp
    · intro hcontra
      simp at hcontra
    · intro _
      refine ⟨removeTask_launched _ _, ?_, ?_⟩
      · have hinfo : ((e.updateTaskState u.status.task_id u.status.state).removeTask
            u.status.task_id).info = e.info := by
          rw [removeTask_info, updateTaskState_info]
        rw [← hinfo]
        simp
      · intro t ht
        exact updateThenRemove_resources e u.status.task_id u.status.state t ht

/-- A FINISHED (terminal) status update for `t1`. -/
def updFinished : StatusUpdate :=
  { framework_id := "f1", slave_id := "s1", executor_id := some "e1",
    status := { task_id := "t1", state := TaskState.TASK_FINISHED },
    timestamp := 3, sequence := 0 }

theorem statusUpdate_valid_witness :
    ∃ fw' e',
      Slave.getFramework (Slave.statusUpdate slave1 7 updFinished).1 updFinished.framework_id
          = some fw' ∧
      alookup fw'.executors "e1" = some e' ∧
      alookup (Option.getD (alookup fw'.updates (7 + STATUS_UPDATE_RETRY_INTERVAL)) [])
          updFinished.status.task_id = some updFinished ∧
      Event.StatusUpdateToMaster slave1.master updFinished true
          ∈ (Slave.statusUpdate slave1 7 updFinished).2 ∧
      (isTerminal updFinished.status.state = false →
        ∀ t, alookup exec1.launchedTasks updFinished.status.task_id = some t →
          alookup e'.launchedTasks updFinished.status.task_id
            = some { t with state := updFinished.status.state }) ∧
      (isTerminal updFinished.status.state = true →
        alookup e'.launchedTasks updFinished.status.task_id = none ∧
        Event.ResourcesChanged fw1.id exec1.info e'.resources
            ∈ (Slave.statusUpdate slave1 7 updFinished).2 ∧
        ∀ t, alookup exec1.launchedTasks updFinished.status.task_id = some t →
          e'.resources = Resources.sub exec1.resources t.resources) :=
  statusUpdate_valid_spec slave1 7 updFinished fw1 "e1" exec1 (by decide) (by decide)

theorem flushQueued_spec (frameworkId : String) (frameworkInfo : FrameworkInfo)
    (frameworkPid : String) :
    ∀ (q : List (String × TaskDescription)) (e : Executor),
      (∀ p ∈ q, (Prod.snd p).task_id = p.1) →
      (q.map Prod.fst).Nodup →
      (∀ k ∈ q.map Prod.fst, alookup e.launchedTasks k = none) →
      ∃ e2,
        Slave.flushQueued frameworkId frameworkInfo frameworkPid e q
          = some (e2, q.map (fun kt =>
              Event.RunTaskToExecutor e.pid frameworkId frameworkInfo frameworkPid kt.2)) ∧
        e2.pid = e.pid ∧ e2.id = e.id ∧ e2.info = e.info ∧
        e2.queuedTasks = e.queuedTasks ∧
        (∀ k ∈ q.map Prod.fst, (alookup e2.launchedTasks k).isSome = true) ∧
        (∀ k, (alookup e.launchedTasks k).isSome = true →
          (alookup e2.launchedTasks k).isSome = true) := by
  intro q
  induction q with
  | nil =>
    intro e _ _ _
    exact ⟨e, rfl, rfl, rfl, rfl, rfl, by simp, fun _ h => h⟩
  | cons p rest ih =>
    obtain ⟨k0, t0⟩ := p
    intro e hkeys hnodup hdisj
    have htid : t0.task_id = k0 := hkeys (k0, t0) (List.mem_cons_self _ _)
    have hnone : alookup e.launchedTasks t0.task_id = none := by
      rw [htid]
      exact hdisj k0 (by simp)
    have hcont : acontains e.launchedTasks t0.task_id = false := by
      simp [acontains, hnone]
    have hadd : e.addTask t0 = some { e with launchedTasks := aupsert e.launchedTasks t0.task_id (e.mkTask t0), resources := Resources.add e.resources t0.resources } := by
      simp [Executor.addTask, hcont]
    rw [List.map_cons] at hnodup
    obtain ⟨hk0notin, hnodup'⟩ := List.nodup_cons.mp hnodup
    have hdisj' : ∀ k ∈ rest.map Prod.fst,
        alookup (aupsert e.launchedTasks t0.task_id (e.mkTask t0)) k = none := by
      intro k hk
      have hne : k ≠ t0.task_id := by
        rw [htid]
        rintro rfl
        exact hk0notin hk
      rw [alookup_aupsert_ne _ _ _ _ hne]
      exact hdisj k (by simp [hk])
    have hkeys' : ∀ p ∈ rest, (Prod.snd p).task_id = p.1 :=
      fun p hp => hkeys p (List.mem_cons_of_mem _ hp)
    obtain ⟨e2, heq, hpid2, hid2, hinfo2, hq2, hks2, hpres2⟩ :=
      ih { e with launchedTasks := aupsert e.launchedTasks t0.task_id (e.mkTask t0), resources := Resources.add e.resources t0.resources } hkeys' hnodup' hdisj'
    refine ⟨e2, ?_, ?_, ?_, ?_, ?_, ?_, ?_⟩
    · simp only [Slave.flushQueued, hadd, heq]
      simp
    · exact hpid2
    · exact hid2
    · exact hinfo2
    · exact hq2
    · intro k hk
      rcases (by simpa using hk : k = k0 ∨ k ∈ rest.map Prod.fst) with rfl | hk'
      · refine hpres2 k ?_
        simp [← htid, alookup_aupsert]
      · exact hks2 k hk'
    · intro k hkk
      refine hpres2 k ?_
      by_cases hkt : k = t0.task_id
      · subst hkt
        simp [alookup_aupsert]
      · simpa [alookup_aupsert_ne _ _ _ _ hkt] using hkk

/-- Claim C6: registerExecutor with an existing framework and an existing
    executor record whose endpoint is empty records the caller as the endpoint,
    calls resourcesChanged, sends the RegisterReply (framework id, executor id,
    agent id, hostname, opaque executor data) before any task message, sends each
    queued task as a separate RunTask message moving it into launchedTasks, and
    leaves queuedTasks empty. Reachable-state side conditions: queued-task keys
    are the tasks' ids, are distinct, and do not collide with launched tasks. -/
theorem registerExecutor_success_spec (s : SlaveState) (callerPid fid eid : String)
    (fw : Framework) (e : Executor)
    (hfw : Slave.getFramework s fid = some fw)
    (he : fw.getExecutor eid = some e)
    (hpid : e.pid = "")
    (hkeys : ∀ p ∈ e.queuedTasks, (Prod.snd p).task_id = p.1)
    (hnodup : (e.queuedTasks.map Prod.fst).Nodup)
    (hdisj : ∀ k ∈ e.queuedTasks.map Prod.fst, alookup e.launchedTasks k = none) :
    ∃ s' fw' e',
      Slave.registerExecutor s callerPid fid eid
        = some (s', Event.ResourcesChanged fw.id e.info e.resources :: Event.RegisterReplyToExecutor callerPid fw.id e.id s.id s.hostname e.info.data :: e.queuedTasks.map (fun kt => Event.RunTaskToExecutor callerPid fw.id fw.info fw.pid kt.2)) ∧
      Slave.getFramework s' fid = some fw' ∧
      alookup fw'.executors eid = some e' ∧
      e'.pid = callerPid ∧
      e'.queuedTasks = [] ∧
      (∀ k ∈ e.queuedTasks.map Prod.fst, (alookup e'.launchedTasks k).isSome = true) := by
  obtain ⟨e2, heq, hpid2, hid2, hinfo2, hq2, hks2, hpres2⟩ :=
    flushQueued_spec fw.id fw.info fw.pid e.queuedTasks { e with pid := callerPid }
      hkeys hnodup hdisj
  refine ⟨{ s with frameworks := aupsert s.frameworks fid { fw with executors := aupsert fw.executors eid { e2 with queuedTasks := [] } } }, { fw with executors := aupsert fw.executors eid { e2 with queuedTasks := [] } }, { e2 with queuedTasks := [] }, ?_, ?_, ?_, ?_, ?_, ?_⟩
  · simp only [Slave.registerExecutor, hfw, he, hpid, ne_eq, not_true_eq_false,
      not_false_eq_true, if_neg, if_false, ite_false]
    simp only [heq]
  · simp [Slave.getFramework, alookup_aupsert]
  · simp [alookup_aupsert]
  · exact hpid2
  · rfl
  · intro k hk
    exact hks2 k hk

/-- A second executor spec for the queue-and-flush scenario. -/
def einfo2 : ExecutorInfo := { executor_id := "e2", uri := "hdfs://exec2", data := "blob" }

/-- First queued task of the scenario. -/
def qtask1 : TaskDescription :=
  { task_id := "q1", name := "queued-one", slave_id := "s1",
    resources := [("cpus", 1)], executor := none }

/-- Second queued task of the scenario. -/
def qtask2 : TaskDescription :=
  { task_id := "q2", name := "queued-two", slave_id := "s1",
    resources := [("mem", 256)], executor := none }

/-- An unregistered executor (empty endpoint) with two queued tasks. -/
def execQ : Executor :=
  { id := "e2", info := einfo2, frameworkId := "f2", directory := "/w/1", pid := "",
    resources := [], queuedTasks := [("q1", qtask1), ("q2", qtask2)], launchedTasks := [] }

/-- Framework info for the queue-and-flush scenario. -/
def fwinfo2 : FrameworkInfo := { name := "fw-two", user := "bob", executor := einfo2 }

/-- Framework `f2` owning the unregistered executor `execQ`. -/
def fw2 : Framework :=
  { id := "f2", info := fwinfo2, pid := "sched-pid-2",
    executors := [("e2", execQ)], updates := [] }

/-- A slave state holding framework `f2` with the unregistered executor. -/
def slave2 : SlaveState :=
  { id := "s1", hostname := "host-a", master := "master-pid",
    frameworks := [("f2", fw2)],
    statistics := { validStatusUpdates := 0, invalidStatusUpdates := 0,
                    validFrameworkMessages := 0, invalidFrameworkMessages := 0 } }

theorem registerExecutor_success_witness :
    ∃ s' fw' e',
      Slave.registerExecutor slave2 "exec-pid-2" "f2" "e2"
        = some (s', Event.ResourcesChanged fw2.id execQ.info execQ.resources :: Event.RegisterReplyToExecutor "exec-pid-2" fw2.id execQ.id slave2.id slave2.hostname execQ.info.data :: execQ.queuedTasks.map (fun kt => Event.RunTaskToExecutor "exec-pid-2" fw2.id fw2.info fw2.pid kt.2)) ∧
      Slave.getFramework s' "f2" = some fw' ∧
      alookup fw'.executors "e2" = some e' ∧
      e'.pid = "exec-pid-2" ∧
      e'.queuedTasks = [] ∧
      (∀ k ∈ execQ.queuedTasks.map Prod.fst, (alookup e'.launchedTasks k).isSome = true) :=
  registerExecutor_success_spec slave2 "exec-pid-2" "f2" "e2" fw2 execQ
    (by decide) (by decide) (by decide) (by decide) (by decide) (by decide)

theorem ack_retirement_single_bucket_witness :
    ∃ fw',
      Slave.getFramework (Slave.statusUpdateAcknowledged slaveOneBucket "s1" "f1" "t1") "f1"
          = some fw' ∧
      (∀ d b, (d, b) ∈ fw'.updates → alookup b "t1" = none) ∧
      (∀ now dest u r,
        Event.StatusUpdateToMaster dest u r ∈ Slave.timeoutFramework "master-pid" fw' now →
        ∃ d b k, (d, b) ∈ fw'.updates ∧ (k, u) ∈ b ∧ k ≠ "t1") :=
  ack_retirement_single_bucket slaveOneBucket "s1" "f1" "t1" fwOneBucket "master-pid"
    (by decide) (by decide)

end Mesos
